import Mathlib

/-!
Verification of conpot/core/file_io.py: the AbstractFS chroot-jail abstraction,
the FileWriter upload capture, and sanitize_file_name.

The Python code is shallowly embedded: filesystem state becomes association
lists from canonical path components to nodes, pyfilesystem2 path
normalisation becomes an Option-valued component fold, and every fallible
operation returns an Except value.
-/

namespace Conpot

/-- Byte strings are modelled as lists of byte values. -/
abbrev Bytes := List Nat

/-- Kinds of backing-store entries: directories, files with content bytes, and
symbolic links with a stored target string. -/
inductive Entry where
  | dir : Entry
  | file (content : Bytes) : Entry
  | symlink (target : String) : Entry
deriving DecidableEq

/-- Raw metadata of the getinfo "stat" namespace: the os.stat fields that
file_io.py reads (st_mode, st_nlink, st_size, st_mtime) together with the
ownership identifiers the raw namespace also carries (st_uid, st_gid). -/
structure StatInfo where
  st_mode : Nat
  st_nlink : Nat
  st_size : Nat
  st_mtime : Nat
  st_uid : Nat
  st_gid : Nat
deriving DecidableEq

/-- A node of the backing filesystem: an entry plus its stat metadata. -/
structure Node where
  entry : Entry
  info : StatInfo
deriving DecidableEq

/-- Filesystem contents as an association list from canonical path components
to nodes. The root directory itself is implicit and always exists. -/
abbrev FSEntries := List (List String × Node)

/-- Exceptions raised by the embedded code: Python AssertionError, the
pyfilesystem2 errors IllegalBackReference, DirectoryExists (the AlreadyExists
of the spec) and ResourceNotFound, Python TypeError, and the builtin open
FileExistsError. -/
inductive Err where
  | assertionError
  | illegalBackReference
  | directoryExists
  | resourceNotFound
  | typeError
  | fileExists
deriving DecidableEq

/-- Modelled from the spec (backing-store collaborator interface): one step of
pyfilesystem2 fs.path.normpath. Empty and "." components are dropped, ".."
removes the last accumulated component and is an IllegalBackReference (None)
when nothing is left to remove; any other component is appended. -/
def normStep (acc : Option (List String)) (c : String) : Option (List String) :=
  match acc with
  | none => none
  | some comps =>
    if c = "" ∨ c = "." then some comps
    else if c = ".." then
      match comps with
      | [] => none
      | _ => some comps.dropLast
    else some (comps ++ [c])

/-- Split a character list at every slash, like the Python str.split("/")
that fs.path.normpath performs; the accumulator holds the current segment
reversed. -/
def splitSlash : List Char → List Char → List String
  | [], acc => [String.mk acc.reverse]
  | c :: rest, acc =>
    if c = '/' then String.mk acc.reverse :: splitSlash rest []
    else splitSlash rest (c :: acc)

/-- Modelled from the spec (backing-store collaborator interface):
pyfilesystem2 fs.path.normpath, reduced to its canonical component list.
Returns none exactly when normalisation raises IllegalBackReference, i.e.
when the path backs out past the root. -/
def normParts (p : String) : Option (List String) :=
  (splitSlash p.data []).foldl normStep (some [])

/-- Look a canonical component list up in the filesystem association list
(first match wins, as in a real directory tree with unique paths). -/
def lookupFS : FSEntries → List String → Option Node
  | [], _ => none
  | e :: rest, comps => if e.1 = comps then some e.2 else lookupFS rest comps

/-- Modelled from the spec (backing-store collaborator interface): whether the
canonical component list denotes a directory; the implicit root is one. -/
def isDirAt (fsE : FSEntries) (comps : List String) : Bool :=
  match comps with
  | [] => true
  | _ =>
    match lookupFS fsE comps with
    | some n =>
      match n.entry with
      | Entry.dir => true
      | _ => false
    | none => false

/-- The state of AbstractFS (file_io.py lines 79-87): the virtual root path,
the protocol home path, the mutable working directory string, and the contents
of the root TempFS that home_fs is a sub-filesystem of. -/
structure AbstractFS where
  root : String
  home : String
  cwd : String
  rootEntries : FSEntries
deriving DecidableEq

/-- Canonical components of the jail home: the sub-directory the home_fs SubFS
was created at (normpath of the home string at creation time). -/
def homeSegs (A : AbstractFS) : List String :=
  (normParts A.home).getD []

/-- Modelled from the spec (backing-store collaborator interface):
home_fs.isdir. The SubFS delegate normalises the argument (raising
IllegalBackReference on a back-reference past its root), prefixes the home
components, and asks the root filesystem whether a directory is there. -/
def homeIsdir (A : AbstractFS) (p : String) : Except Err Bool :=
  match normParts p with
  | none => Except.error Err.illegalBackReference
  | some comps => Except.ok (isDirAt A.rootEntries (homeSegs A ++ comps))

/-- AbstractFS.chdir (file_io.py lines 128-138). The code asserts the path is
truthy, then tests home_fs.isdir on the raw string concatenation of cwd and
path; on success it appends path to cwd by string concatenation; otherwise it
merely constructs fs.errors.FSError without raising it, so the method returns
normally and cwd is left unchanged. -/
def chdir (A : AbstractFS) (path : String) : Except Err AbstractFS :=
  if path = "" then Except.error Err.assertionError
  else
    match homeIsdir A (A.cwd ++ path) with
    | Except.error e => Except.error e
    | Except.ok true => Except.ok { A with cwd := A.cwd ++ path }
    | Except.ok false => Except.ok A

/-- AbstractFS.getcwd (file_io.py lines 140-142): returns the cwd string. -/
def getcwd (A : AbstractFS) : String := A.cwd

/-- AbstractFS.stat (file_io.py lines 152-157): asserts the path is truthy and
returns home_fs.getinfo(path, namespaces of stat).raw of stat — the raw stat
namespace of the node, unfiltered. -/
def stat (A : AbstractFS) (p : String) : Except Err StatInfo :=
  if p = "" then Except.error Err.assertionError
  else
    match normParts p with
    | none => Except.error Err.illegalBackReference
    | some comps =>
      match lookupFS A.rootEntries (homeSegs A ++ comps) with
      | some n => Except.ok n.info
      | none => Except.error Err.resourceNotFound

/-- Link target an OSFS link getinfo namespace reports for an entry: the
stored target for a symbolic link, None (none) for anything else. -/
def linkTarget : Entry → Option String
  | Entry.symlink t => some t
  | _ => none

/-- AbstractFS.readlink (file_io.py lines 159-164). The code asserts the path
is truthy, then queries the link namespace of the literal path "." — the jail
home itself — never of the given path, and returns its target field, which is
None whenever the home is an ordinary directory. -/
def readlink (A : AbstractFS) (p : String) : Except Err (Option String) :=
  if p = "" then Except.error Err.assertionError
  else
    match lookupFS A.rootEntries (homeSegs A) with
    | some n => Except.ok (linkTarget n.entry)
    | none => Except.error Err.resourceNotFound

/-- AbstractFS.format_list (file_io.py lines 190-236), as the pair of the
lines the generator yields and the exception that terminates it, if any. For
an empty listing the generator is exhausted without yielding. For the first
entry the code stats basedir ++ basename (string concatenation); a stat
failure propagates. When stat succeeds the code computes permission, nlinks,
size, uname, gname and mtime, and then evaluates st[[st_mtime-key]] — a dict
subscript whose key is the one-element list, which raises TypeError
(unhashable type) before any yield statement can run; the yield itself sits
further down, inside the symlink branch. So no line is ever yielded. -/
def format_list (A : AbstractFS) (basedir : String) (listing : List String) :
    List String × Option Err :=
  match listing with
  | [] => ([], none)
  | basename :: _ =>
    match stat A (basedir ++ basename) with
    | Except.error e => ([], some e)
    | Except.ok _ => ([], some Err.typeError)

/-- Modelled from the spec (backing-store collaborator interface): exclusive
directory creation, TempFS.makedir — fails with DirectoryExists when the
directory is already present. -/
def makedir (fsE : FSEntries) (comps : List String) (info : StatInfo) :
    Except Err FSEntries :=
  match lookupFS fsE comps with
  | some _ => Except.error Err.directoryExists
  | none => Except.ok (fsE ++ [(comps, { entry := Entry.dir, info := info })])

/-- Modelled from the spec (backing-store collaborator interface):
fs.mirror.mirror — recursively copies every entry of the source tree to the
same relative path under the destination, preserving content bytes. -/
def mirrorInto (fsE : FSEntries) (dst : List String) (src : FSEntries) :
    FSEntries :=
  fsE ++ src.map (fun e => (dst ++ e.1, e.2))

/-- AbstractFS.__init__ together with _add_protocol (file_io.py lines 79-98):
sets root to "/", home and cwd to "/" ++ protocol_name, exclusively creates
that directory in the root filesystem (home_fs is the SubFS there), and
mirrors the source tree into it. The info argument stands for the stat
metadata the backing store assigns to the fresh home directory. -/
def initFS (rootE : FSEntries) (protocol_name : String) (src : FSEntries)
    (info : StatInfo) : Except Err AbstractFS :=
  let home := "/" ++ protocol_name
  match normParts home with
  | none => Except.error Err.illegalBackReference
  | some comps =>
    match makedir rootE comps info with
    | Except.error e => Except.error e
    | Except.ok fsE1 =>
      Except.ok
        { root := "/", home := home, cwd := home
          rootEntries := mirrorInto fsE1 comps src }

/-- A resolved location is inside the jail when the home components lead it. -/
def atOrBelow (home loc : List String) : Bool := home.isPrefixOf loc

/-- Stat metadata of a demonstration entry; st_uid and st_gid carry the host
process ids (1000 here) exactly as os.stat reports them. -/
def demoInfo : StatInfo :=
  { st_mode := 33188, st_nlink := 1, st_size := 0, st_mtime := 0
    st_uid := 1000, st_gid := 1000 }

/-- A fresh jail for protocol "ftp" mirrored from an empty source tree, as
AbstractFS.__init__ produces it. -/
def demoJail : AbstractFS :=
  { root := "/", home := "/ftp", cwd := "/ftp"
    rootEntries := [(["ftp"], { entry := Entry.dir, info := demoInfo })] }

/-- C1: jail containment fails on the code. In a fresh jail for protocol
"ftp", the single call chdir "/.." passes the home_fs.isdir check (the
concatenated string "/ftp/.." normalises to the SubFS root) and is accepted,
so getcwd returns "/ftp/..", whose canonical resolution is the empty
component list — the virtual root, strictly above home ["ftp"]. -/
theorem c1_chdir_escapes_jail :
    initFS [] "ftp" [] demoInfo = Except.ok demoJail ∧
    chdir demoJail "/.." = Except.ok { demoJail with cwd := "/ftp/.." } ∧
    getcwd { demoJail with cwd := "/ftp/.." } = "/ftp/.." ∧
    normParts "/ftp/.." = some [] ∧
    atOrBelow (homeSegs demoJail) [] = false := by
  refine ⟨rfl, rfl, rfl, rfl, rfl⟩

/-- C2: the chdir error contract fails on the code. chdir on a missing
directory returns normally with the state unchanged (the FSError is
constructed but never raised), and the jail-escaping "/.." is accepted rather
than rejected, storing the non-canonical string "/ftp/.." as cwd. -/
theorem c2_chdir_never_raises_not_a_directory :
    chdir demoJail "nosuch" = Except.ok demoJail ∧
    chdir demoJail "/.." = Except.ok { demoJail with cwd := "/ftp/.." } ∧
    normParts "/ftp/.." = some [] ∧ ("/ftp/.." : String) ≠ "/" := by
  refine ⟨rfl, rfl, rfl, by decide⟩

/-- C10: a failed chdir is a silent no-op. Whenever the home_fs.isdir test on
the concatenated path evaluates to false, chdir returns normally (no
exception: the constructed FSError is never raised) and the whole state —
in particular cwd — is unchanged. -/
theorem c10_failed_chdir_is_silent_noop (A : AbstractFS) (path : String)
    (h1 : path ≠ "") (h2 : homeIsdir A (A.cwd ++ path) = Except.ok false) :
    chdir A path = Except.ok A := by
  unfold chdir
  rw [if_neg h1, h2]

/-- C10 witness: chdir to a missing directory in the demonstration jail
returns the unchanged state. -/
theorem c10_failed_chdir_is_silent_noop_witness :
    chdir demoJail "nosuch" = Except.ok demoJail :=
  c10_failed_chdir_is_silent_noop demoJail "nosuch" (by decide) rfl

/-- Stat metadata of the listing fixture: mode 0o100644 (a regular file with
permission bits 0644), one link, size 7045120, an old mtime, and the host
ownership ids as os.stat reports them. -/
def musicInfo : StatInfo :=
  { st_mode := 33188, st_nlink := 1, st_size := 7045120, st_mtime := 1662105600
    st_uid := 1000, st_gid := 1000 }

/-- The fixture file node. -/
def musicNode : Node := { entry := Entry.file [1, 2, 3], info := musicInfo }

/-- A symbolic link node whose stored target is "realfile"
(mode 0o120777 marks a symlink). -/
def linkNode : Node :=
  { entry := Entry.symlink "realfile"
    info := { st_mode := 41471, st_nlink := 1, st_size := 8
              st_mtime := 1662105600, st_uid := 1000, st_gid := 1000 } }

/-- The regular file the demonstration symlink points at. -/
def realNode : Node := { entry := Entry.file [7, 7], info := demoInfo }

/-- A populated jail for protocol "ftp": the fixture file, a symlink and its
target, all mirrored below home. -/
def demoJail2 : AbstractFS :=
  { root := "/", home := "/ftp", cwd := "/ftp"
    rootEntries :=
      [(["ftp"], { entry := Entry.dir, info := demoInfo }),
       (["ftp", "music.mp3"], musicNode),
       (["ftp", "mylink"], linkNode),
       (["ftp", "realfile"], realNode)] }

/-- C3: listing exactness fails on the code. On the exact fixture — a jail
holding music.mp3 with mode 0o100644, 1 link, size 7045120, an old mtime —
stat succeeds, yet the generator yields no line at all and terminates with
TypeError: the age comparison subscripts the stat dict with the one-element
list [st_mtime-key], and the yield statement is nested inside the symlink
branch besides. -/
theorem c3_format_list_fixture_raises_type_error :
    stat demoJail2 "/music.mp3" = Except.ok musicInfo ∧
    format_list demoJail2 "/" ["music.mp3"] = ([], some Err.typeError) := by
  refine ⟨rfl, rfl⟩

/-- C4: forcing the generator returned by format_list on any non-empty
listing whose first entry stats successfully raises TypeError before any
line is yielded, so no formatted line is ever produced. -/
theorem c4_format_list_type_error_before_first_yield (A : AbstractFS)
    (basedir basename : String) (rest : List String) (i : StatInfo)
    (h : stat A (basedir ++ basename) = Except.ok i) :
    format_list A basedir (basename :: rest) = ([], some Err.typeError) := by
  simp only [format_list, h]

/-- C4 witness: the populated jail, basedir "" and a two-entry listing. -/
theorem c4_format_list_type_error_before_first_yield_witness :
    format_list demoJail2 "" ["music.mp3", "mylink"] = ([], some Err.typeError) :=
  c4_format_list_type_error_before_first_yield demoJail2 "" "music.mp3"
    ["mylink"] musicInfo rfl

/-- C5: the readlink contract fails on the code. The jail stores a symlink
"mylink" with target "realfile", yet readlink "mylink" returns the link field
of the literal path "." — the home directory — which is None; and readlink on
the regular file "music.mp3" also returns None instead of failing with a
NotASymlink error. -/
theorem c5_readlink_ignores_its_path_argument :
    lookupFS demoJail2.rootEntries (homeSegs demoJail2 ++ ["mylink"]) =
      some linkNode ∧
    linkTarget linkNode.entry = some "realfile" ∧
    readlink demoJail2 "mylink" = Except.ok none ∧
    readlink demoJail2 "music.mp3" = Except.ok none := by
  refine ⟨rfl, rfl, rfl, rfl⟩

/-- C6 counterexample: stat does report real host ownership identifiers. On
the populated jail, stat returns the raw stat namespace of the node, whose
st_uid and st_gid fields are the host ids 1000 recorded by the backing store
— not the placeholder strings the claim promises. -/
theorem c6_stat_reports_host_ownership_ids :
    stat demoJail2 "music.mp3" = Except.ok musicInfo ∧
    musicInfo.st_uid = 1000 ∧ musicInfo.st_gid = 1000 := by
  refine ⟨rfl, rfl, rfl⟩

/-- C6 amended: the directory listing never reports any ownership identifier,
real or placeholder, because format_list yields no lines at all; stat,
however, passes the backing store's raw stat namespace through unfiltered,
including the host's numeric st_uid and st_gid. -/
theorem c6_listing_silent_stat_passthrough (A : AbstractFS) (basedir : String)
    (listing : List String) (p : String) (comps : List String) (n : Node)
    (h1 : p ≠ "") (h2 : normParts p = some comps)
    (h3 : lookupFS A.rootEntries (homeSegs A ++ comps) = some n) :
    (format_list A basedir listing).1 = [] ∧ stat A p = Except.ok n.info := by
  constructor
  · cases listing with
    | nil => rfl
    | cons b rest =>
      cases hs : stat A (basedir ++ b) <;> simp [format_list, hs]
  · simp only [stat, if_neg h1, h2, h3]

/-- C6 witness: instantiated at the populated jail and its fixture file. -/
theorem c6_listing_silent_stat_passthrough_witness :
    (format_list demoJail2 "/" ["music.mp3", "mylink"]).1 = [] ∧
    stat demoJail2 "mylink" = Except.ok linkNode.info :=
  c6_listing_silent_stat_passthrough demoJail2 "/" ["music.mp3", "mylink"]
    "mylink" ["mylink"] linkNode (by decide) rfl rfl

/-- Lookup walks past a block of entries that does not hold the key. -/
theorem lookupFS_append (a b : FSEntries) (k : List String)
    (h : lookupFS a k = none) : lookupFS (a ++ b) k = lookupFS b k := by
  induction a with
  | nil => rfl
  | cons e rest ih =>
    simp only [lookupFS, List.cons_append] at h ⊢
    by_cases he : e.1 = k
    · rw [if_pos he] at h
      exact absurd h (by simp)
    · rw [if_neg he] at h ⊢
      exact ih h

/-- Lookup skips a leading entry whose key differs. -/
theorem lookupFS_cons_ne (k1 : List String) (n1 : Node) (rest : FSEntries)
    (k : List String) (h : ¬k1 = k) :
    lookupFS ((k1, n1) :: rest) k = lookupFS rest k := by
  simp only [lookupFS]
  rw [if_neg (by simpa using h)]

/-- Lookup below a destination prefix finds exactly the mirrored source
entry: prefixing every key with the destination components is injective. -/
theorem lookupFS_map_prefixed (src : FSEntries) (pre relp : List String) :
    lookupFS (src.map (fun e => (pre ++ e.1, e.2))) (pre ++ relp) =
      lookupFS src relp := by
  induction src with
  | nil => rfl
  | cons e rest ih =>
    simp only [List.map_cons, lookupFS]
    by_cases he : e.1 = relp
    · simp [he]
    · have hne : ¬(pre ++ e.1 = pre ++ relp) := fun hc =>
        he (List.append_cancel_left hc)
      simp [he, hne, ih]

/-- A nonempty suffix changes a component list. -/
theorem ne_append_right (comps relp : List String) (h : relp ≠ []) :
    comps ≠ comps ++ relp := by
  intro heq
  have hlen := congrArg List.length heq
  simp only [List.length_append] at hlen
  exact h (List.length_eq_zero.mp (by omega))

/-- C7: initialization exclusively creates the protocol subtree, failing with
the DirectoryExists error (the AlreadyExists of the spec) when it is already
present; on a fresh root it succeeds, sets root to "/", home and cwd to
"/" ++ protocolName, records the new home directory, and mirrors every source
entry to the same relative path below home with its node — content bytes
included — intact. -/
theorem c7_initialize_exclusive_create_and_mirror (rootE : FSEntries)
    (name : String) (src : FSEntries) (info : StatInfo) (comps : List String)
    (hn : normParts ("/" ++ name) = some comps) :
    ((∃ n, lookupFS rootE comps = some n) →
      initFS rootE name src info = Except.error Err.directoryExists) ∧
    ((∀ q, lookupFS rootE (comps ++ q) = none) →
      ∃ A, initFS rootE name src info = Except.ok A ∧
        A.root = "/" ∧ A.home = "/" ++ name ∧ A.cwd = A.home ∧
        lookupFS A.rootEntries comps =
          some { entry := Entry.dir, info := info } ∧
        (∀ relp node, relp ≠ [] → lookupFS src relp = some node →
          lookupFS A.rootEntries (comps ++ relp) = some node)) := by
  constructor
  · rintro ⟨n, hsome⟩
    simp only [initFS, hn, makedir, hsome]
  · intro hfresh
    have h0 : lookupFS rootE comps = none := by
      have := hfresh []
      simpa using this
    refine ⟨{ root := "/", home := "/" ++ name, cwd := "/" ++ name
              rootEntries :=
                mirrorInto (rootE ++ [(comps, { entry := Entry.dir, info := info })])
                  comps src },
            ?_, rfl, rfl, rfl, ?_, ?_⟩
    · simp only [initFS, hn, makedir, h0]
    · show lookupFS
        ((rootE ++ [(comps, { entry := Entry.dir, info := info })]) ++
          src.map (fun e => (comps ++ e.1, e.2))) comps =
        some { entry := Entry.dir, info := info }
      rw [List.append_assoc, lookupFS_append rootE _ comps h0]
      simp [lookupFS]
    · intro relp node hrelp hsrc
      show lookupFS
        ((rootE ++ [(comps, { entry := Entry.dir, info := info })]) ++
          src.map (fun e => (comps ++ e.1, e.2))) (comps ++ relp) =
        some node
      rw [List.append_assoc,
        lookupFS_append rootE _ (comps ++ relp) (hfresh relp),
        List.cons_append, List.nil_append,
        lookupFS_cons_ne comps _ _ _ (ne_append_right comps relp hrelp),
        lookupFS_map_prefixed src comps relp]
      exact hsrc

/-- C7 witness: initializing protocol "ftp" over a root that already holds
the subtree fails with DirectoryExists; over an empty root with a one-file
source tree it succeeds, sets home and cwd, creates the home directory, and
mirrors the file byte-for-byte to the same relative path. -/
theorem c7_initialize_exclusive_create_and_mirror_witness :
    initFS [(["ftp"], { entry := Entry.dir, info := demoInfo })] "ftp" []
        demoInfo = Except.error Err.directoryExists ∧
    (∃ A, initFS [] "ftp" [(["music.mp3"], musicNode)] demoInfo =
        Except.ok A ∧
      A.root = "/" ∧ A.home = "/" ++ "ftp" ∧ A.cwd = A.home ∧
      lookupFS A.rootEntries ["ftp"] =
        some { entry := Entry.dir, info := demoInfo } ∧
      (∀ relp node, relp ≠ [] →
        lookupFS [(["music.mp3"], musicNode)] relp = some node →
        lookupFS A.rootEntries (["ftp"] ++ relp) = some node)) :=
  ⟨(c7_initialize_exclusive_create_and_mirror
      [(["ftp"], { entry := Entry.dir, info := demoInfo })] "ftp" [] demoInfo
      ["ftp"] rfl).1 ⟨{ entry := Entry.dir, info := demoInfo }, rfl⟩,
   (c7_initialize_exclusive_create_and_mirror [] "ftp"
      [(["music.mp3"], musicNode)] demoInfo ["ftp"] rfl).2 (fun _ => rfl)⟩

/-- Modelled from the spec: the persistent store where uploaded bytes land —
disjoint from any jail TempFS — as a flat map from file names to content. -/
abbrev Store := List (String × Bytes)

/-- Look a file name up in the persistent store. -/
def storeLookup : Store → String → Option Bytes
  | [], _ => none
  | e :: rest, name => if e.1 = name then some e.2 else storeLookup rest name

/-- An open FileWriter handle (file_io.py lines 30-57): it remembers the file
name it was opened at. -/
structure FileWriter where
  name : String
deriving DecidableEq

/-- FileWriter.__init__ and _open_file: the Python builtin open(name, "xb") —
exclusive binary creation, raising FileExistsError when the name already
exists; otherwise the store gains an empty file of that name. -/
def fileWriterOpen (s : Store) (name : String) :
    Except Err (Store × FileWriter) :=
  match storeLookup s name with
  | some _ => Except.error Err.fileExists
  | none => Except.ok (s ++ [(name, [])], { name := name })

/-- Append data to the named file's content, leaving every other file alone
(the effect of a write on a handle opened in append-at-end binary mode). -/
def storeAppend : Store → String → Bytes → Store
  | [], _, _ => []
  | e :: rest, name, data =>
    if e.1 = name then (e.1, e.2 ++ data) :: rest
    else e :: storeAppend rest name data

/-- FileWriter.write_chunk: writes the chunk through the handle and returns
the number of bytes written. -/
def write_chunk (s : Store) (w : FileWriter) (data : Bytes) : Store × Nat :=
  (storeAppend s w.name data, data.length)

/-- The store after a sequence of write_chunk calls; the final flush and
close (_flush and __del__) change no content. -/
def writeChunks (w : FileWriter) : Store → List Bytes → Store
  | s, [] => s
  | s, d :: rest => writeChunks w (write_chunk s w d).1 rest

/-- Store lookup walks past a block that does not hold the name. -/
theorem storeLookup_append (a b : Store) (k : String)
    (h : storeLookup a k = none) : storeLookup (a ++ b) k = storeLookup b k := by
  induction a with
  | nil => rfl
  | cons e rest ih =>
    simp only [storeLookup, List.cons_append] at h ⊢
    by_cases he : e.1 = k
    · rw [if_pos he] at h
      exact absurd h (by simp)
    · rw [if_neg he] at h ⊢
      exact ih h

/-- Appending to one file leaves the content found at the same name extended. -/
theorem storeLookup_storeAppend_self (s : Store) (k : String) (d b : Bytes)
    (h : storeLookup s k = some b) :
    storeLookup (storeAppend s k d) k = some (b ++ d) := by
  induction s with
  | nil => simp [storeLookup] at h
  | cons e rest ih =>
    simp only [storeLookup, storeAppend] at h ⊢
    by_cases he : e.1 = k
    · rw [if_pos he] at h ⊢
      simp only [storeLookup, if_pos he]
      rw [Option.some_inj] at h
      rw [h]
    · rw [if_neg he] at h ⊢
      simp only [storeLookup, if_neg he]
      exact ih h

/-- Appending to one file leaves every other file's content untouched. -/
theorem storeLookup_storeAppend_other (s : Store) (k other : String)
    (d : Bytes) (h : other ≠ k) :
    storeLookup (storeAppend s k d) other = storeLookup s other := by
  induction s with
  | nil => rfl
  | cons e rest ih =>
    simp only [storeAppend, storeLookup]
    by_cases he : e.1 = k
    · rw [if_pos he]
      simp only [storeLookup]
      rw [if_neg (by rw [he]; exact fun hc => h hc.symm),
        if_neg (by rw [he]; exact fun hc => h hc.symm)]
    · rw [if_neg he]
      simp only [storeLookup]
      by_cases heo : e.1 = other
      · rw [if_pos heo, if_pos heo]
      · rw [if_neg heo, if_neg heo]
        exact ih

/-- Writing a list of chunks appends their concatenation to the open file. -/
theorem writeChunks_lookup_self (w : FileWriter) (chunks : List Bytes)
    (s : Store) (b : Bytes) (h : storeLookup s w.name = some b) :
    storeLookup (writeChunks w s chunks) w.name =
      some (chunks.foldl (fun a c => a ++ c) b) := by
  induction chunks generalizing s b with
  | nil => simpa [writeChunks] using h
  | cons d rest ih =>
    simp only [writeChunks, write_chunk, List.foldl_cons]
    exact ih (storeAppend s w.name d) (b ++ d)
      (storeLookup_storeAppend_self s w.name d b h)

/-- Writing a list of chunks leaves every other file untouched. -/
theorem writeChunks_lookup_other (w : FileWriter) (chunks : List Bytes)
    (s : Store) (other : String) (h : other ≠ w.name) :
    storeLookup (writeChunks w s chunks) other = storeLookup s other := by
  induction chunks generalizing s with
  | nil => rfl
  | cons d rest ih =>
    simp only [writeChunks, write_chunk]
    rw [ih (storeAppend s w.name d),
      storeLookup_storeAppend_other s w.name other d h]

/-- Creating one fresh file at the end of the store leaves lookups at every
other name unchanged. -/
theorem storeLookup_snoc_other (s : Store) (name other : String) (b : Bytes)
    (h : other ≠ name) :
    storeLookup (s ++ [(name, b)]) other = storeLookup s other := by
  induction s with
  | nil =>
    simp only [List.nil_append, storeLookup]
    rw [if_neg (fun hc => h hc.symm)]
  | cons e rest ih =>
    simp only [storeLookup, List.cons_append]
    by_cases he : e.1 = other
    · rw [if_pos he, if_pos he]
    · rw [if_neg he, if_neg he]
      exact ih

/-- C8: opening an upload writer at a name already present in the persistent
store fails with FileExistsError (the AlreadyExists of the spec), never
overwriting; at a fresh name the open succeeds exclusively, and after any
sequence of chunk writes the store holds exactly the concatenation of the
written chunks under that name while every other stored file — in particular
anything a jail could reference — is byte-for-byte unchanged. -/
theorem c8_upload_exclusive_create_and_roundtrip (s : Store) (name : String) :
    ((∃ b, storeLookup s name = some b) →
      fileWriterOpen s name = Except.error Err.fileExists) ∧
    (storeLookup s name = none →
      ∃ s1 w, fileWriterOpen s name = Except.ok (s1, w) ∧ w.name = name ∧
        ∀ chunks : List Bytes,
          storeLookup (writeChunks w s1 chunks) name =
            some (chunks.foldl (fun a c => a ++ c) []) ∧
          ∀ other, other ≠ name →
            storeLookup (writeChunks w s1 chunks) other =
              storeLookup s other) := by
  constructor
  · rintro ⟨b, hb⟩
    simp only [fileWriterOpen, hb]
  · intro hnone
    refine ⟨s ++ [(name, [])], { name := name }, ?_, rfl, ?_⟩
    · simp only [fileWriterOpen, hnone]
    · intro chunks
      have hinit : storeLookup (s ++ [(name, [])]) name = some [] := by
        rw [storeLookup_append s _ name hnone]
        simp [storeLookup]
      constructor
      · exact writeChunks_lookup_self { name := name } chunks _ [] hinit
      · intro other hother
        rw [writeChunks_lookup_other { name := name } chunks _ other hother]
        exact storeLookup_snoc_other s name other [] hother

/-- C8 witness: a store holding "taken"; opening "taken" fails with
FileExistsError, opening "fresh" succeeds and two chunks written through the
handle are retrievable concatenated, with "taken" untouched. -/
theorem c8_upload_exclusive_create_and_roundtrip_witness :
    fileWriterOpen [("taken", [9])] "taken" = Except.error Err.fileExists ∧
    (∃ s1 w, fileWriterOpen [("taken", [9])] "fresh" = Except.ok (s1, w) ∧
      w.name = "fresh" ∧
      ∀ chunks : List Bytes,
        storeLookup (writeChunks w s1 chunks) "fresh" =
          some (chunks.foldl (fun a c => a ++ c) []) ∧
        ∀ other, other ≠ "fresh" →
          storeLookup (writeChunks w s1 chunks) other =
            storeLookup [("taken", [9])] other) :=
  ⟨(c8_upload_exclusive_create_and_roundtrip [("taken", [9])] "taken").1
      ⟨[9], rfl⟩,
   (c8_upload_exclusive_create_and_roundtrip [("taken", [9])] "fresh").2 rfl⟩

/-- A wall-clock reading at second precision: the fields datetime.now feeds
into strftime("%Y-%m-%d %H:%M:%S"). -/
structure PyDateTime where
  year : Nat
  month : Nat
  day : Nat
  hour : Nat
  minute : Nat
  second : Nat
deriving DecidableEq

/-- Two decimal digits with zero padding: the strftime fields %m, %d, %H, %M
and %S for values below 100. -/
def digits2 (n : Nat) : List Char :=
  [Nat.digitChar (n / 10 % 10), Nat.digitChar (n % 10)]

/-- Four decimal digits: the strftime field %Y for years 1000 through 9999. -/
def digits4 (n : Nat) : List Char :=
  [Nat.digitChar (n / 1000 % 10), Nat.digitChar (n / 100 % 10),
   Nat.digitChar (n / 10 % 10), Nat.digitChar (n % 10)]

/-- The result of datetime.now().strftime("%Y-%m-%d %H:%M:%S") on an in-range
clock reading: four year digits, then zero-padded two-digit month, day, hour,
minute and second with the literal separators of the format string. -/
def strftimeStamp (t : PyDateTime) : String :=
  String.mk (digits4 t.year ++ '-' :: digits2 t.month ++ '-' :: digits2 t.day
    ++ ' ' :: digits2 t.hour ++ ':' :: digits2 t.minute
    ++ ':' :: digits2 t.second)

/-- sanitize_file_name (file_io.py lines 17-23): the second-precision
timestamp of the current clock reading, the literal " - " separator, and the
slug of the name. The clock reading is the explicit now argument and slugify,
an external collaborator, enters as a function parameter. -/
def sanitize_file_name (slugify : String → String) (now : PyDateTime)
    (name : String) : String :=
  strftimeStamp now ++ " - " ++ slugify name

/-- Field ranges of a real datetime value (Python datetime caps the year at
9999; months, days, hours, minutes and seconds have their calendar ranges). -/
def ValidDT (t : PyDateTime) : Prop :=
  1000 ≤ t.year ∧ t.year ≤ 9999 ∧ 1 ≤ t.month ∧ t.month ≤ 12 ∧
  1 ≤ t.day ∧ t.day ≤ 31 ∧ t.hour ≤ 23 ∧ t.minute ≤ 59 ∧ t.second ≤ 59

instance (t : PyDateTime) : Decidable (ValidDT t) := by
  unfold ValidDT
  infer_instance

/-- Decimal digit characters are distinct for distinct digits. -/
theorem digitChar_inj_lt_ten : ∀ a, a < 10 → ∀ b, b < 10 →
    Nat.digitChar a = Nat.digitChar b → a = b := by decide

/-- The second-precision timestamp determines the clock reading: on valid
readings the format "%Y-%m-%d %H:%M:%S" is injective. -/
theorem strftimeStamp_inj (t1 t2 : PyDateTime) (h1 : ValidDT t1)
    (h2 : ValidDT t2) (h : strftimeStamp t1 = strftimeStamp t2) : t1 = t2 := by
  obtain ⟨y1, mo1, d1, hh1, mi1, s1⟩ := t1
  obtain ⟨y2, mo2, d2, hh2, mi2, s2⟩ := t2
  unfold ValidDT at h1 h2
  dsimp only at h1 h2
  obtain ⟨hy1a, hy1b, hmo1a, hmo1b, hd1a, hd1b, hh1b, hmi1b, hs1b⟩ := h1
  obtain ⟨hy2a, hy2b, hmo2a, hmo2b, hd2a, hd2b, hh2b, hmi2b, hs2b⟩ := h2
  rw [String.ext_iff] at h
  simp only [strftimeStamp, digits4, digits2, List.cons_append,
    List.nil_append, List.cons.injEq, and_true] at h
  obtain ⟨e1, e2, e3, e4, _, e5, e6, _, e7, e8, _, e9, e10, _, e11, e12, _,
    e13, e14⟩ := h
  have ten : (0 : Nat) < 10 := by norm_num
  have g1 := digitChar_inj_lt_ten _ (Nat.mod_lt _ ten) _ (Nat.mod_lt _ ten) e1
  have g2 := digitChar_inj_lt_ten _ (Nat.mod_lt _ ten) _ (Nat.mod_lt _ ten) e2
  have g3 := digitChar_inj_lt_ten _ (Nat.mod_lt _ ten) _ (Nat.mod_lt _ ten) e3
  have g4 := digitChar_inj_lt_ten _ (Nat.mod_lt _ ten) _ (Nat.mod_lt _ ten) e4
  have g5 := digitChar_inj_lt_ten _ (Nat.mod_lt _ ten) _ (Nat.mod_lt _ ten) e5
  have g6 := digitChar_inj_lt_ten _ (Nat.mod_lt _ ten) _ (Nat.mod_lt _ ten) e6
  have g7 := digitChar_inj_lt_ten _ (Nat.mod_lt _ ten) _ (Nat.mod_lt _ ten) e7
  have g8 := digitChar_inj_lt_ten _ (Nat.mod_lt _ ten) _ (Nat.mod_lt _ ten) e8
  have g9 := digitChar_inj_lt_ten _ (Nat.mod_lt _ ten) _ (Nat.mod_lt _ ten) e9
  have g10 := digitChar_inj_lt_ten _ (Nat.mod_lt _ ten) _ (Nat.mod_lt _ ten) e10
  have g11 := digitChar_inj_lt_ten _ (Nat.mod_lt _ ten) _ (Nat.mod_lt _ ten) e11
  have g12 := digitChar_inj_lt_ten _ (Nat.mod_lt _ ten) _ (Nat.mod_lt _ ten) e12
  have g13 := digitChar_inj_lt_ten _ (Nat.mod_lt _ ten) _ (Nat.mod_lt _ ten) e13
  have g14 := digitChar_inj_lt_ten _ (Nat.mod_lt _ ten) _ (Nat.mod_lt _ ten) e14
  simp only [PyDateTime.mk.injEq]
  refine ⟨by omega, by omega, by omega, by omega, by omega, by omega⟩

/-- C9: sanitize_file_name yields the second-precision clock stamp, the
literal " - " separator and the slug of the name; it is a pure function of
the clock reading and the name, and two sanitizations of the same name at
different second-precision readings yield different identifiers (readings
within the same second are not distinguished). -/
theorem c9_sanitize_stamp_separates_seconds (slugify : String → String)
    (name : String) (t1 t2 : PyDateTime) (h1 : ValidDT t1) (h2 : ValidDT t2)
    (hne : t1 ≠ t2) :
    sanitize_file_name slugify t1 name =
      strftimeStamp t1 ++ " - " ++ slugify name ∧
    sanitize_file_name slugify t1 name ≠
      sanitize_file_name slugify t2 name := by
  refine ⟨rfl, ?_⟩
  intro h
  apply hne
  apply strftimeStamp_inj t1 t2 h1 h2
  apply String.ext
  have hd := congrArg String.data h
  simp only [sanitize_file_name, String.data_append] at hd
  exact List.append_cancel_right (List.append_cancel_right hd)

/-- C9 witness: identical name and slug, clock readings one second apart,
distinct identifiers. -/
theorem c9_sanitize_stamp_separates_seconds_witness :
    sanitize_file_name (fun s => s) ⟨2022, 9, 2, 3, 47, 10⟩ "report" =
      strftimeStamp ⟨2022, 9, 2, 3, 47, 10⟩ ++ " - " ++ "report" ∧
    sanitize_file_name (fun s => s) ⟨2022, 9, 2, 3, 47, 10⟩ "report" ≠
      sanitize_file_name (fun s => s) ⟨2022, 9, 2, 3, 47, 11⟩ "report" :=
  c9_sanitize_stamp_separates_seconds (fun s => s) "report"
    ⟨2022, 9, 2, 3, 47, 10⟩ ⟨2022, 9, 2, 3, 47, 11⟩ (by decide) (by decide)
    (by decide)

end Conpot
